import Mathlib

/-!
Shallow embedding of the discord playtime bot (src/discord-playtime-bot.py).

Instants are modelled as integer seconds; local calendar days as integer day
ordinals (day 0 = 1970-01-01 in the configured timezone).  SQLite tables are
modelled as lists of rows in storage order; `INSERT ... ON CONFLICT DO UPDATE`
updates the matching row in place or appends a fresh row.  ISO date strings
compare lexicographically exactly as their day ordinals compare numerically,
so SQL `BETWEEN` on day strings is embedded as two integer comparisons.
-/

namespace PlaytimeBot

/-- `HEARTBEAT_SECONDS = 60`: seconds credited per heartbeat tick. -/
def HEARTBEAT_SECONDS : Int := 60

/-- Configured timezone offset in seconds (the default configuration `PLAYTIME_TZ=UTC`,
offset 0).  `to_local` shifts an instant by this offset before taking its date. -/
def TZ_OFFSET : Int := 0

/-- Model of `iso_date_local`: the local calendar day ordinal of an instant. -/
def iso_date_local (t : Int) : Int := (t + TZ_OFFSET).fdiv 86400

/-- Day ordinal of `"0000-01-01"` (the unrecognized-period fallback window start)
relative to day 0 = 1970-01-01: 719528 days earlier. -/
def FALLBACK_START : Int := -719528

/-- A row of the `totals` table: PRIMARY KEY (user_id, activity). -/
structure TotalRow where
  user_id : Nat
  activity : String
  seconds : Int
deriving DecidableEq

/-- A row of the `daily_totals` table: PRIMARY KEY (user_id, activity, day). -/
structure DailyRow where
  user_id : Nat
  activity : String
  day : Int
  seconds : Int
deriving DecidableEq

/-- A row of the `guild_usernames` table: PRIMARY KEY user_id. -/
structure NameRow where
  user_id : Nat
  username : String
  updated_at : Int
deriving DecidableEq

/-- The durable store: the three SQLite tables, rows in storage order. -/
structure Store where
  totals : List TotalRow
  daily_totals : List DailyRow
  guild_usernames : List NameRow
deriving DecidableEq

/-- A freshly initialized database (`_init_db` creates empty tables). -/
def Store.empty : Store := ⟨[], [], []⟩

/-- `INSERT INTO guild_usernames ... ON CONFLICT(user_id) DO UPDATE SET username, updated_at`. -/
def upsertName : List NameRow → Nat → String → Int → List NameRow
  | [], u, nm, t => [⟨u, nm, t⟩]
  | r :: rs, u, nm, t =>
    if r.user_id = u then ⟨u, nm, t⟩ :: rs else r :: upsertName rs u nm t

/-- `INSERT INTO totals ... ON CONFLICT(user_id, activity) DO UPDATE SET seconds = seconds + excluded.seconds`. -/
def upsertTotal : List TotalRow → Nat → String → Int → List TotalRow
  | [], u, a, c => [⟨u, a, c⟩]
  | r :: rs, u, a, c =>
    if r.user_id = u ∧ r.activity = a then ⟨u, a, r.seconds + c⟩ :: rs
    else r :: upsertTotal rs u a c

/-- `INSERT INTO daily_totals ... ON CONFLICT(user_id, activity, day) DO UPDATE SET seconds = seconds + excluded.seconds`. -/
def upsertDaily : List DailyRow → Nat → String → Int → Int → List DailyRow
  | [], u, a, d, c => [⟨u, a, d, c⟩]
  | r :: rs, u, a, d, c =>
    if r.user_id = u ∧ r.activity = a ∧ r.day = d then ⟨u, a, d, r.seconds + c⟩ :: rs
    else r :: upsertDaily rs u a d c

/-- `Store.add_time(user_id, username, activity, seconds, when=None)`.  A no-op when
`seconds <= 0`; otherwise upserts the display-name cache, the total counter and the
daily counter for the local day of `when` (defaulting to now, as `when or now_utc()`). -/
def Store.add_time (s : Store) (user_id : Nat) (username : String) (activity : String)
    (seconds : Int) (now : Int) (when : Option Int := none) : Store :=
  if seconds ≤ 0 then s
  else
    let w := when.getD now
    let day := iso_date_local w
    { totals := upsertTotal s.totals user_id activity seconds
      daily_totals := upsertDaily s.daily_totals user_id activity day seconds
      guild_usernames := upsertName s.guild_usernames user_id username now }

/-- Total stored seconds in `totals` rows keyed (u, a) (the table holds at most one). -/
def totalsOf : List TotalRow → Nat → String → Int
  | [], _, _ => 0
  | r :: rs, u, a => (if r.user_id = u ∧ r.activity = a then r.seconds else 0) + totalsOf rs u a

/-- Total stored seconds in `daily_totals` rows keyed (u, a), summed over all days. -/
def dailyAllOf : List DailyRow → Nat → String → Int
  | [], _, _ => 0
  | r :: rs, u, a => (if r.user_id = u ∧ r.activity = a then r.seconds else 0) + dailyAllOf rs u a

/-- Stored seconds in the `daily_totals` row keyed (u, a, d) (at most one). -/
def dailyOnOf : List DailyRow → Nat → String → Int → Int
  | [], _, _, _ => 0
  | r :: rs, u, a, d =>
    (if r.user_id = u ∧ r.activity = a ∧ r.day = d then r.seconds else 0) + dailyOnOf rs u a d

/-- The TotalCounter value for (u, a). -/
def totalSeconds (s : Store) (u : Nat) (a : String) : Int := totalsOf s.totals u a

/-- The sum of DailyCounter values for (u, a) over all days. -/
def dailySecondsAll (s : Store) (u : Nat) (a : String) : Int := dailyAllOf s.daily_totals u a

/-- The DailyCounter value for (u, a) on day d. -/
def dailySecondsOn (s : Store) (u : Nat) (a : String) (d : Int) : Int := dailyOnOf s.daily_totals u a d

theorem totalsOf_upsertTotal (l : List TotalRow) (u : Nat) (a : String) (c : Int)
    (u' : Nat) (a' : String) :
    totalsOf (upsertTotal l u a c) u' a' =
      totalsOf l u' a' + (if u = u' ∧ a = a' then c else 0) := by
  induction l with
  | nil =>
    simp only [upsertTotal, totalsOf]
    split_ifs <;> omega
  | cons r rs ih =>
    obtain ⟨ru, ra, rc⟩ := r
    simp only [upsertTotal]
    by_cases h : ru = u ∧ ra = a
    · obtain ⟨hu, ha⟩ := h
      subst hu; subst ha
      simp only [if_pos (by exact ⟨rfl, rfl⟩ : ru = ru ∧ ra = ra), totalsOf]
      split_ifs <;> omega
    · simp only [if_neg h, totalsOf, ih]
      omega

theorem dailyAllOf_upsertDaily (l : List DailyRow) (u : Nat) (a : String) (d c : Int)
    (u' : Nat) (a' : String) :
    dailyAllOf (upsertDaily l u a d c) u' a' =
      dailyAllOf l u' a' + (if u = u' ∧ a = a' then c else 0) := by
  induction l with
  | nil =>
    simp only [upsertDaily, dailyAllOf]
    split_ifs <;> omega
  | cons r rs ih =>
    obtain ⟨ru, ra, rd, rc⟩ := r
    simp only [upsertDaily]
    by_cases h : ru = u ∧ ra = a ∧ rd = d
    · obtain ⟨hu, ha, hd⟩ := h
      subst hu; subst ha; subst hd
      simp only [if_pos (by exact ⟨rfl, rfl, rfl⟩ : ru = ru ∧ ra = ra ∧ rd = rd), dailyAllOf]
      split_ifs <;> omega
    · simp only [if_neg h, dailyAllOf, ih]
      omega

theorem dailyOnOf_upsertDaily (l : List DailyRow) (u : Nat) (a : String) (d c : Int)
    (u' : Nat) (a' : String) (d' : Int) :
    dailyOnOf (upsertDaily l u a d c) u' a' d' =
      dailyOnOf l u' a' d' + (if u = u' ∧ a = a' ∧ d = d' then c else 0) := by
  induction l with
  | nil =>
    simp only [upsertDaily, dailyOnOf]
    split_ifs <;> omega
  | cons r rs ih =>
    obtain ⟨ru, ra, rd, rc⟩ := r
    simp only [upsertDaily]
    by_cases h : ru = u ∧ ra = a ∧ rd = d
    · obtain ⟨hu, ha, hd⟩ := h
      subst hu; subst ha; subst hd
      simp only [if_pos (by exact ⟨rfl, rfl, rfl⟩ : ru = ru ∧ ra = ra ∧ rd = rd), dailyOnOf]
      split_ifs <;> omega
    · simp only [if_neg h, dailyOnOf, ih]
      omega

theorem totalSeconds_add_time (s : Store) (u : Nat) (nm a : String) (c now : Int)
    (w : Option Int) (u' : Nat) (a' : String) :
    totalSeconds (s.add_time u nm a c now w) u' a' =
      totalSeconds s u' a' + (if c ≤ 0 then 0 else if u = u' ∧ a = a' then c else 0) := by
  rw [totalSeconds, totalSeconds, Store.add_time]
  by_cases h : c ≤ 0
  · simp [if_pos h]
  · simp only [if_neg h]
    exact totalsOf_upsertTotal s.totals u a c u' a'

theorem dailySecondsAll_add_time (s : Store) (u : Nat) (nm a : String) (c now : Int)
    (w : Option Int) (u' : Nat) (a' : String) :
    dailySecondsAll (s.add_time u nm a c now w) u' a' =
      dailySecondsAll s u' a' + (if c ≤ 0 then 0 else if u = u' ∧ a = a' then c else 0) := by
  rw [dailySecondsAll, dailySecondsAll, Store.add_time]
  by_cases h : c ≤ 0
  · simp [if_pos h]
  · simp only [if_neg h]
    exact dailyAllOf_upsertDaily s.daily_totals u a (iso_date_local (w.getD now)) c u' a'

theorem dailySecondsOn_add_time (s : Store) (u : Nat) (nm a : String) (c now : Int)
    (w : Option Int) (u' : Nat) (a' : String) (d' : Int) :
    dailySecondsOn (s.add_time u nm a c now w) u' a' d' =
      dailySecondsOn s u' a' d' +
        (if c ≤ 0 then 0
         else if u = u' ∧ a = a' ∧ iso_date_local (w.getD now) = d' then c else 0) := by
  rw [dailySecondsOn, dailySecondsOn, Store.add_time]
  by_cases h : c ≤ 0
  · simp [if_pos h]
  · simp only [if_neg h]
    exact dailyOnOf_upsertDaily s.daily_totals u a (iso_date_local (w.getD now)) c u' a' d'

/-- Stable insertion of `x` into a list sorted non-increasingly by key `f`:
`x` passes rows with strictly greater key and lands before the first row whose key
is not greater, so rows with equal keys keep their underlying storage order.  This
models SQLite `ORDER BY seconds DESC`, which imposes no order beyond the sort key. -/
def insertDesc (f : α → Int) (x : α) : List α → List α
  | [] => [x]
  | y :: ys => if f x < f y then y :: insertDesc f x ys else x :: y :: ys

/-- Stable sort, non-increasing by key `f` (model of `ORDER BY seconds DESC`). -/
def sortDesc (f : α → Int) : List α → List α
  | [] => []
  | x :: xs => insertDesc f x (sortDesc f xs)

theorem mem_insertDesc (f : α → Int) (x : α) (l : List α) (y : α) :
    y ∈ insertDesc f x l ↔ y = x ∨ y ∈ l := by
  induction l with
  | nil => simp [insertDesc]
  | cons z zs ih =>
    simp only [insertDesc]
    split_ifs with h
    · simp only [List.mem_cons, ih]
      tauto
    · simp only [List.mem_cons]

theorem pairwise_insertDesc (f : α → Int) (x : α) (l : List α)
    (h : List.Pairwise (fun p q => f q ≤ f p) l) :
    List.Pairwise (fun p q => f q ≤ f p) (insertDesc f x l) := by
  induction l with
  | nil => simp [insertDesc]
  | cons z zs ih =>
    rw [List.pairwise_cons] at h
    simp only [insertDesc]
    split_ifs with hzx
    · rw [List.pairwise_cons]
      refine ⟨fun y hy => ?_, ih h.2⟩
      rw [mem_insertDesc] at hy
      rcases hy with rfl | hy
      · omega
      · exact h.1 y hy
    · rw [List.pairwise_cons]
      refine ⟨fun y hy => ?_, List.Pairwise.cons h.1 h.2⟩
      rcases List.mem_cons.mp hy with rfl | hy
      · omega
      · have := h.1 y hy
        omega

theorem pairwise_sortDesc (f : α → Int) (l : List α) :
    List.Pairwise (fun p q => f q ≤ f p) (sortDesc f l) := by
  induction l with
  | nil => simp [sortDesc]
  | cons x xs ih => exact pairwise_insertDesc f x _ ih

theorem perm_insertDesc (f : α → Int) (x : α) (l : List α) :
    (insertDesc f x l).Perm (x :: l) := by
  induction l with
  | nil => simp [insertDesc]
  | cons z zs ih =>
    simp only [insertDesc]
    split_ifs with h
    · exact (ih.cons z).trans (List.Perm.swap x z zs)
    · exact List.Perm.refl _

theorem perm_sortDesc (f : α → Int) (l : List α) : (sortDesc f l).Perm l := by
  induction l with
  | nil => simp [sortDesc]
  | cons x xs ih => exact (perm_insertDesc f x _).trans (ih.cons x)

theorem mem_sortDesc (f : α → Int) (l : List α) (y : α) :
    y ∈ sortDesc f l ↔ y ∈ l :=
  (perm_sortDesc f l).mem_iff

theorem length_sortDesc (f : α → Int) (l : List α) :
    (sortDesc f l).length = l.length :=
  (perm_sortDesc f l).length_eq

/-- First-occurrence key enumeration: the distinct values of a list in the order they
first appear while scanning the rows.  Models the grouping pass of `GROUP BY`. -/
def scanKeys [DecidableEq α] (l : List α) : List α := l.reverse.dedup.reverse

theorem mem_scanKeys [DecidableEq α] (l : List α) (x : α) :
    x ∈ scanKeys l ↔ x ∈ l := by
  simp [scanKeys]

/-- Lookup in the `guild_usernames` table (the `JOIN guild_usernames gu ON gu.user_id = ...`:
a row with no cached name joins to nothing and is dropped). -/
def lookupName : List NameRow → Nat → Option String
  | [], _ => none
  | r :: rs, u => if r.user_id = u then some r.username else lookupName rs u

/-- Python truthiness of the optional `activity` filter argument: `None` and the empty
string are falsy (`if activity:`). -/
def activityGiven : Option String → Bool
  | none => false
  | some a => !(a == "")

/-- The daily-window aggregation of `top_activities` for a window `[startDay, endDay]`:
`SELECT activity, SUM(seconds) FROM daily_totals WHERE user_id=? AND day BETWEEN ? AND ?
GROUP BY activity ORDER BY seconds DESC LIMIT ?`. -/
def dailyTop (daily : List DailyRow) (user_id : Nat) (startDay endDay : Int) (limit : Nat) :
    List (String × Int) :=
  let rows := daily.filter (fun r => r.user_id = user_id ∧ startDay ≤ r.day ∧ r.day ≤ endDay)
  let acts := scanKeys (rows.map (fun r => r.activity))
  (sortDesc (fun e => e.2)
    (acts.map (fun a => (a, ((rows.filter (fun r => r.activity = a)).map (fun r => r.seconds)).sum)))).take limit

/-- `Store.top_activities(user_id, period, limit)`: the `all` period reads the totals
table directly; any other period is turned into a day window `[start, end]` — with the
unrecognized-period fallback `start = "0000-01-01"` — and aggregated from daily totals. -/
def Store.top_activities (s : Store) (user_id : Nat) (period : String) (limit : Nat)
    (now : Int) : List (String × Int) :=
  if period = "all" then
    (sortDesc (fun e => e.2)
      ((s.totals.filter (fun r => r.user_id = user_id)).map (fun r => (r.activity, r.seconds)))).take limit
  else
    let e := iso_date_local now
    let startDay :=
      if period = "today" then e
      else if period = "week" then e - 6
      else if period = "month" then e - 29
      else FALLBACK_START
    dailyTop s.daily_totals user_id startDay e limit

/-- The daily-window aggregation of `leaderboard` for a window `[startDay, endDay]`:
filter daily rows to the given users (and activity when one is given), group by user,
join each user to the cached display name, order by summed seconds, truncate. -/
def dailyBoard (daily : List DailyRow) (names : List NameRow) (guild_user_ids : List Nat)
    (activity : Option String) (startDay endDay : Int) (limit : Nat) :
    List (Nat × String × Int) :=
  let rows :=
    if activityGiven activity then
      daily.filter (fun r =>
        r.user_id ∈ guild_user_ids ∧ some r.activity = activity ∧ startDay ≤ r.day ∧ r.day ≤ endDay)
    else
      daily.filter (fun r => r.user_id ∈ guild_user_ids ∧ startDay ≤ r.day ∧ r.day ≤ endDay)
  let users := scanKeys (rows.map (fun r => r.user_id))
  (sortDesc (fun e => e.2.2)
    (users.filterMap (fun u => (lookupName names u).map
      (fun nm => (u, nm, ((rows.filter (fun r => r.user_id = u)).map (fun r => r.seconds)).sum))))).take limit

/-- The all-time branch of `leaderboard`, reading the totals table: with an activity
filter each matching totals row joins its cached name directly; without one, rows are
grouped per user and summed. -/
def allBoard (totals : List TotalRow) (names : List NameRow) (guild_user_ids : List Nat)
    (activity : Option String) (limit : Nat) : List (Nat × String × Int) :=
  if activityGiven activity then
    (sortDesc (fun e => e.2.2)
      ((totals.filter (fun r => r.user_id ∈ guild_user_ids ∧ some r.activity = activity)).filterMap
        (fun r => (lookupName names r.user_id).map (fun nm => (r.user_id, nm, r.seconds))))).take limit
  else
    let rows := totals.filter (fun r => r.user_id ∈ guild_user_ids)
    let users := scanKeys (rows.map (fun r => r.user_id))
    (sortDesc (fun e => e.2.2)
      (users.filterMap (fun u => (lookupName names u).map
        (fun nm => (u, nm, ((rows.filter (fun r => r.user_id = u)).map (fun r => r.seconds)).sum))))).take limit

/-- `Store.leaderboard(guild_user_ids, activity, period, limit)`: empty id list short-circuits
to an empty result; the `all` period reads totals; any other period — again with the
unrecognized-period fallback `start = "0000-01-01"` — aggregates daily totals. -/
def Store.leaderboard (s : Store) (guild_user_ids : List Nat) (activity : Option String)
    (period : String) (limit : Nat) (now : Int) : List (Nat × String × Int) :=
  if guild_user_ids = [] then []
  else if period = "all" then
    allBoard s.totals s.guild_usernames guild_user_ids activity limit
  else
    let e := iso_date_local now
    let startDay :=
      if period = "today" then e
      else if period = "week" then e - 6
      else if period = "month" then e - 29
      else FALLBACK_START
    dailyBoard s.daily_totals s.guild_usernames guild_user_ids activity startDay e limit

/-- An in-memory session key, flattening the two-level dict
`user_id -> (activity -> started_at)` of the tracker to `(user_id, activity)` keys. -/
abbrev SessionKey := Nat × String

/-- `PresenceTracker.active`: the in-memory map of running sessions to their start instant. -/
structure PresenceTracker where
  active : List (SessionKey × Int)
deriving DecidableEq

/-- Dictionary lookup of a session start instant. -/
def lookupSession : List (SessionKey × Int) → SessionKey → Option Int
  | [], _ => none
  | p :: rest, k => if p.1 = k then some p.2 else lookupSession rest k

/-- Dictionary `pop`: remove the entry for a key, if any. -/
def removeSession : List (SessionKey × Int) → SessionKey → List (SessionKey × Int)
  | [], _ => []
  | p :: rest, k => if p.1 = k then rest else p :: removeSession rest k

/-- `PresenceTracker.start(user_id, activity)`: record `now` as the start instant only
when no session exists for the key. -/
def PresenceTracker.start (t : PresenceTracker) (user_id : Nat) (activity : String)
    (now : Int) : PresenceTracker :=
  if (lookupSession t.active (user_id, activity)).isSome then t
  else ⟨((user_id, activity), now) :: t.active⟩

/-- `PresenceTracker.stop(user_id, activity)`: pop the session; with no session return 0,
otherwise return `now - started_at` (whole seconds) and the tracker without the session. -/
def PresenceTracker.stop (t : PresenceTracker) (user_id : Nat) (activity : String)
    (now : Int) : Int × PresenceTracker :=
  match lookupSession t.active (user_id, activity) with
  | none => (0, t)
  | some started => (now - started, ⟨removeSession t.active (user_id, activity)⟩)

/-- One iteration of `PresenceTracker.heartbeat`: walk every active session and credit
the fixed `HEARTBEAT_SECONDS` to the store (`names` gives each member's display name;
the stored start instant of a session is ignored). -/
def heartbeat_tick (st : Store) (names : Nat → String) (t : PresenceTracker) (now : Int) :
    Store :=
  t.active.foldl (fun s p => s.add_time p.1.1 (names p.1.1) p.1.2 HEARTBEAT_SECONDS now) st

/-- The stopped-previous-game branch of `on_presence_update`: stop the session and, when
the returned elapsed is positive, credit it to the store. -/
def on_stop_transition (st : Store) (t : PresenceTracker) (user_id : Nat)
    (username before_name : String) (now : Int) : Store × PresenceTracker :=
  let r := t.stop user_id before_name now
  (if 0 < r.1 then st.add_time user_id username before_name r.1 now else st, r.2)

/-- A sequence of `add_time` calls to one (user, activity) key: each call supplies a
display name, a seconds amount and the call instant. -/
def applyCalls (s : Store) (u : Nat) (a : String) : List (String × Int × Int) → Store
  | [] => s
  | c :: rest => applyCalls (s.add_time u c.1 a c.2.1 c.2.2) u a rest

theorem applyCalls_counters (u : Nat) (a : String) (calls : List (String × Int × Int))
    (h : ∀ x ∈ calls, 0 < x.2.1) (s : Store) :
    totalSeconds (applyCalls s u a calls) u a =
      totalSeconds s u a + (calls.map (fun x => x.2.1)).sum ∧
    dailySecondsAll (applyCalls s u a calls) u a =
      dailySecondsAll s u a + (calls.map (fun x => x.2.1)).sum := by
  induction calls generalizing s with
  | nil => simp [applyCalls]
  | cons c rest ih =>
    have hc : 0 < c.2.1 := h c (by simp)
    have hrest : ∀ x ∈ rest, 0 < x.2.1 := fun x hx => h x (by simp [hx])
    have hrec := ih hrest (s.add_time u c.1 a c.2.1 c.2.2)
    rw [applyCalls]
    constructor
    · rw [hrec.1, totalSeconds_add_time, if_neg (by omega), if_pos ⟨rfl, rfl⟩]
      simp [add_assoc]
    · rw [hrec.2, dailySecondsAll_add_time, if_neg (by omega), if_pos ⟨rfl, rfl⟩]
      simp [add_assoc]

/-- Claim C3: any sequence of `add_time` calls with positive seconds to one
(user, activity) key leaves the TotalCounter equal to the sum of the amounts, and the
sum of the DailyCounter values of that key over all days equal to the same sum. -/
theorem claim_C3 (u : Nat) (a : String) (calls : List (String × Int × Int))
    (h : ∀ x ∈ calls, 0 < x.2.1) :
    totalSeconds (applyCalls Store.empty u a calls) u a = (calls.map (fun x => x.2.1)).sum ∧
    dailySecondsAll (applyCalls Store.empty u a calls) u a =
      (calls.map (fun x => x.2.1)).sum := by
  have := applyCalls_counters u a calls h Store.empty
  simpa [Store.empty, totalSeconds, dailySecondsAll, totalsOf, dailyAllOf] using this

theorem claim_C3_witness :
    totalSeconds (applyCalls Store.empty 1 "Chess" [("p", 60, 0), ("p", 90, 86400)]) 1 "Chess" =
      ([("p", 60, 0), ("p", 90, 86400)].map (fun x : String × Int × Int => x.2.1)).sum ∧
    dailySecondsAll (applyCalls Store.empty 1 "Chess" [("p", 60, 0), ("p", 90, 86400)]) 1 "Chess" =
      ([("p", 60, 0), ("p", 90, 86400)].map (fun x : String × Int × Int => x.2.1)).sum :=
  claim_C3 1 "Chess" [("p", 60, 0), ("p", 90, 86400)] (by decide)

/-- Claim C4: `add_time` with non-positive seconds leaves the store entirely unchanged
(no total, daily or display-name row touched), and no stored counter ever decreases
under any `add_time` call. -/
theorem claim_C4 (s : Store) (u : Nat) (nm a : String) (c now : Int) (w : Option Int) :
    (c ≤ 0 → s.add_time u nm a c now w = s) ∧
    (∀ (u' : Nat) (a' : String),
      totalSeconds s u' a' ≤ totalSeconds (s.add_time u nm a c now w) u' a') ∧
    (∀ (u' : Nat) (a' : String) (d' : Int),
      dailySecondsOn s u' a' d' ≤ dailySecondsOn (s.add_time u nm a c now w) u' a' d') := by
  refine ⟨fun h => by rw [Store.add_time, if_pos h], fun u' a' => ?_, fun u' a' d' => ?_⟩
  · rw [totalSeconds_add_time]
    split_ifs <;> omega
  · rw [dailySecondsOn_add_time]
    split_ifs <;> omega

theorem claim_C4_witness :
    Store.add_time Store.empty 1 "p" "Chess" (-3) 5 none = Store.empty ∧
    totalSeconds Store.empty 2 "X" ≤
      totalSeconds (Store.add_time Store.empty 1 "p" "Chess" (-3) 5 none) 2 "X" :=
  ⟨(claim_C4 Store.empty 1 "p" "Chess" (-3) 5 none).1 (by decide),
   (claim_C4 Store.empty 1 "p" "Chess" (-3) 5 none).2.1 2 "X"⟩

/-- Claim C5: a second `start` for an already-active (user, activity) pair is a no-op —
the tracker state is identical to the state after the first `start`. -/
theorem claim_C5 (t : PresenceTracker) (u : Nat) (a : String) (t1 t2 : Int) :
    (t.start u a t1).start u a t2 = t.start u a t1 := by
  simp only [PresenceTracker.start]
  by_cases h : (lookupSession t.active (u, a)).isSome
  · simp [h]
  · simp [if_neg h, lookupSession]

/-- Claim C6: `stop` with no active session for the key returns 0 and changes neither
the session map nor (through the presence-update handler) the durable store. -/
theorem claim_C6 (st : Store) (t : PresenceTracker) (u : Nat) (nm a : String) (now : Int)
    (h : lookupSession t.active (u, a) = none) :
    t.stop u a now = (0, t) ∧ on_stop_transition st t u nm a now = (st, t) := by
  have hstop : t.stop u a now = (0, t) := by rw [PresenceTracker.stop, h]
  refine ⟨hstop, ?_⟩
  rw [on_stop_transition, hstop]
  simp

theorem claim_C6_witness :
    (((((PresenceTracker.mk []).start 1 "Chess" 0).stop 1 "Chess" 90).2).stop 1 "Chess" 95 =
      (0, (((PresenceTracker.mk []).start 1 "Chess" 0).stop 1 "Chess" 90).2)) ∧
    on_stop_transition Store.empty ((((PresenceTracker.mk []).start 1 "Chess" 0).stop 1 "Chess" 90).2)
        1 "p" "Chess" 95 =
      (Store.empty, (((PresenceTracker.mk []).start 1 "Chess" 0).stop 1 "Chess" 90).2) :=
  claim_C6 Store.empty _ 1 "p" "Chess" 95 (by decide)

/-- Claim C10: a heartbeat tick credits the fixed constant `HEARTBEAT_SECONDS` to every
active session: the result never depends on the stored start instants (zeroing them all
changes nothing), and a single active session's total grows by exactly
`HEARTBEAT_SECONDS`, whatever its start instant and the current time. -/
theorem claim_C10 (st : Store) (names : Nat → String) (t : PresenceTracker) (now : Int) :
    heartbeat_tick st names t now =
      heartbeat_tick st names ⟨t.active.map (fun p => (p.1, 0))⟩ now ∧
    ∀ (u : Nat) (a : String) (t0 : Int),
      totalSeconds (heartbeat_tick st names ⟨[((u, a), t0)]⟩ now) u a =
        totalSeconds st u a + HEARTBEAT_SECONDS := by
  constructor
  · rw [heartbeat_tick, heartbeat_tick]
    simp [List.foldl_map]
  · intro u a t0
    rw [heartbeat_tick]
    simp only [List.foldl_cons, List.foldl_nil]
    rw [totalSeconds_add_time]
    simp [HEARTBEAT_SECONDS]

/-- Claim C1 counterexample: start at t=0, heartbeat tick at t=60 crediting 60s, stop at
t=90.  The stop credit is computed from the original session start (the tracker keeps no
last-credit instant), so the store receives 60 + 90 = 150 seconds, not 90. -/
theorem claim_C1_counterexample :
    totalSeconds (on_stop_transition
        (heartbeat_tick Store.empty (fun _ => "p1") ((PresenceTracker.mk []).start 1 "Chess" 0) 60)
        ((PresenceTracker.mk []).start 1 "Chess" 0) 1 "p1" "Chess" 90).1 1 "Chess" = 150 ∧
    ¬ totalSeconds (on_stop_transition
        (heartbeat_tick Store.empty (fun _ => "p1") ((PresenceTracker.mk []).start 1 "Chess" 0) 60)
        ((PresenceTracker.mk []).start 1 "Chess" 0) 1 "p1" "Chess" 90).1 1 "Chess" = 90 := by
  decide

/-- Claim C1 amended: for a session started at any t0, credited by a heartbeat tick at
t0+60 and stopped at t0+90, stop returns 90 — the elapsed time since the original session
start — so the total credited across the tick and the stop is 150, not 90: the tick's
60 seconds are double counted. -/
theorem claim_C1_amended (u : Nat) (a nm : String) (t0 : Int) (names : Nat → String) :
    (((PresenceTracker.mk []).start u a t0).stop u a (t0 + 90)).1 = 90 ∧
    totalSeconds (on_stop_transition
        (heartbeat_tick Store.empty names ((PresenceTracker.mk []).start u a t0) (t0 + 60))
        ((PresenceTracker.mk []).start u a t0) u nm a (t0 + 90)).1 u a = 150 := by
  have hstart : (PresenceTracker.mk []).start u a t0 = ⟨[((u, a), t0)]⟩ := by
    simp [PresenceTracker.start, lookupSession]
  have hstop : (⟨[((u, a), t0)]⟩ : PresenceTracker).stop u a (t0 + 90) = (90, ⟨[]⟩) := by
    simp [PresenceTracker.stop, lookupSession, removeSession, Prod.ext_iff]
  rw [hstart]
  constructor
  · rw [hstop]
  · rw [on_stop_transition, hstop]
    simp only []
    rw [if_pos (by omega : (0 : Int) < (90, (⟨[]⟩ : PresenceTracker)).1)]
    rw [totalSeconds_add_time]
    rw [heartbeat_tick]
    simp only [List.foldl_cons, List.foldl_nil]
    rw [totalSeconds_add_time]
    have hempty : totalSeconds Store.empty u a = 0 := by
      simp [Store.empty, totalSeconds, totalsOf]
    rw [hempty, HEARTBEAT_SECONDS]
    norm_num

/-- Claim C2 counterexample: with the period string "bogus" — none of today/week/month/all —
both query operations return results computed over the fallback window starting at day
"0000-01-01" (a daily row dated about 1917 years before the query day is included) instead
of rejecting the period as invalid input. -/
theorem claim_C2_counterexample :
    Store.top_activities ⟨[], [⟨1, "Old", -700000, 5⟩], [⟨1, "p1", 0⟩]⟩ 1 "bogus" 10 0 =
      [("Old", 5)] ∧
    Store.leaderboard ⟨[], [⟨1, "Old", -700000, 5⟩], [⟨1, "p1", 0⟩]⟩ [1] none "bogus" 10 0 =
      [(1, "p1", 5)] := by
  decide

/-- Claim C2 amended: a period string that is none of today/week/month/all is not rejected;
`top_activities` and `leaderboard` silently fall back to the daily-totals window
`["0000-01-01", today]`, an effectively all-time-since-year-0 window. -/
theorem claim_C2_amended (s : Store) (u : Nat) (ids : List Nat) (act : Option String)
    (p : String) (lim : Nat) (now : Int)
    (h1 : p ≠ "all") (h2 : p ≠ "today") (h3 : p ≠ "week") (h4 : p ≠ "month") :
    Store.top_activities s u p lim now =
      dailyTop s.daily_totals u FALLBACK_START (iso_date_local now) lim ∧
    Store.leaderboard s ids act p lim now =
      (if ids = [] then []
       else dailyBoard s.daily_totals s.guild_usernames ids act FALLBACK_START
         (iso_date_local now) lim) := by
  constructor
  · rw [Store.top_activities]
    simp only [if_neg h1, if_neg h2, if_neg h3, if_neg h4]
  · rw [Store.leaderboard]
    by_cases hids : ids = []
    · simp [hids]
    · simp only [if_neg hids, if_neg h1, if_neg h2, if_neg h3, if_neg h4]

theorem claim_C2_amended_witness :
    Store.top_activities ⟨[], [⟨1, "Old", -700000, 5⟩], [⟨1, "p1", 0⟩]⟩ 1 "bogus" 10 0 =
      dailyTop [⟨1, "Old", -700000, 5⟩] 1 FALLBACK_START (iso_date_local 0) 10 ∧
    Store.leaderboard ⟨[], [⟨1, "Old", -700000, 5⟩], [⟨1, "p1", 0⟩]⟩ [1] none "bogus" 10 0 =
      (if ([1] : List Nat) = [] then []
       else dailyBoard [⟨1, "Old", -700000, 5⟩] [⟨1, "p1", 0⟩] [1] none FALLBACK_START
         (iso_date_local 0) 10) :=
  claim_C2_amended ⟨[], [⟨1, "Old", -700000, 5⟩], [⟨1, "p1", 0⟩]⟩ 1 [1] none "bogus" 10 0
    (by decide) (by decide) (by decide) (by decide)

/-- Claim C7: the week window is the 7 inclusive local days [today - 6, today]: a daily
row dated exactly today - 6 shows up in week-period results of both query operations,
and a row dated today - 7 does not. -/
theorem claim_C7 (u : Nat) (a nm : String) (c now : Int) (lim : Nat) (hl : 1 ≤ lim) :
    Store.top_activities ⟨[], [⟨u, a, iso_date_local now - 6, c⟩], []⟩ u "week" lim now =
      [(a, c)] ∧
    Store.top_activities ⟨[], [⟨u, a, iso_date_local now - 7, c⟩], []⟩ u "week" lim now = [] ∧
    Store.leaderboard ⟨[], [⟨u, a, iso_date_local now - 6, c⟩], [⟨u, nm, 0⟩]⟩ [u] none "week"
        lim now = [(u, nm, c)] ∧
    Store.leaderboard ⟨[], [⟨u, a, iso_date_local now - 7, c⟩], [⟨u, nm, 0⟩]⟩ [u] none "week"
        lim now = [] := by
  have hin : iso_date_local now - 6 ≤ iso_date_local now := by omega
  have hout : ¬ (iso_date_local now - 6 ≤ iso_date_local now - 7) := by omega
  have hout2 : ¬ (iso_date_local now ≤ iso_date_local now - 7 + 6) := by omega
  have htop : ∀ x : String × Int, List.take lim [x] = [x] :=
    fun x => List.take_of_length_le (by simpa using hl)
  have hboard : ∀ x : Nat × String × Int, List.take lim [x] = [x] :=
    fun x => List.take_of_length_le (by simpa using hl)
  refine ⟨?_, ?_, ?_, ?_⟩
  · simp [Store.top_activities, dailyTop, scanKeys, sortDesc, insertDesc, hin, htop]
  · simp [Store.top_activities, dailyTop, scanKeys, sortDesc, hout, hout2]
  · simp [Store.leaderboard, dailyBoard, activityGiven, scanKeys, sortDesc, insertDesc,
      lookupName, hin, hboard]
  · simp [Store.leaderboard, dailyBoard, activityGiven, scanKeys, sortDesc, hout, hout2]

theorem claim_C7_witness :
    Store.top_activities ⟨[], [⟨1, "Chess", iso_date_local 0 - 6, 5⟩], []⟩ 1 "week" 10 0 =
      [("Chess", 5)] ∧
    Store.top_activities ⟨[], [⟨1, "Chess", iso_date_local 0 - 7, 5⟩], []⟩ 1 "week" 10 0 = [] ∧
    Store.leaderboard ⟨[], [⟨1, "Chess", iso_date_local 0 - 6, 5⟩], [⟨1, "p1", 0⟩]⟩ [1] none
        "week" 10 0 = [(1, "p1", 5)] ∧
    Store.leaderboard ⟨[], [⟨1, "Chess", iso_date_local 0 - 7, 5⟩], [⟨1, "p1", 0⟩]⟩ [1] none
        "week" 10 0 = [] :=
  claim_C7 1 "Chess" "p1" 5 0 10 (by decide)

theorem mem_allBoard (totals : List TotalRow) (names : List NameRow) (ids : List Nat)
    (act : Option String) (lim : Nat) (x : Nat × String × Int)
    (hx : x ∈ allBoard totals names ids act lim) : x.1 ∈ ids := by
  rw [allBoard] at hx
  split_ifs at hx
  · have hx' := (mem_sortDesc _ _ _).mp (List.mem_of_mem_take hx)
    obtain ⟨r, hr, hmap⟩ := List.mem_filterMap.mp hx'
    obtain ⟨nmv, hnm, hb⟩ := Option.map_eq_some'.mp hmap
    subst hb
    have hpred := (List.mem_filter.mp hr).2
    simp only [decide_eq_true_eq] at hpred
    exact hpred.1
  · have hx' := (mem_sortDesc _ _ _).mp (List.mem_of_mem_take hx)
    obtain ⟨uu, huu, hmap⟩ := List.mem_filterMap.mp hx'
    obtain ⟨nmv, hnm, hb⟩ := Option.map_eq_some'.mp hmap
    subst hb
    rw [mem_scanKeys] at huu
    obtain ⟨r, hr, hru⟩ := List.mem_map.mp huu
    have hpred := (List.mem_filter.mp hr).2
    simp only [decide_eq_true_eq] at hpred
    rw [← hru]
    exact hpred

theorem mem_dailyBoard (daily : List DailyRow) (names : List NameRow) (ids : List Nat)
    (act : Option String) (startDay endDay : Int) (lim : Nat) (x : Nat × String × Int)
    (hx : x ∈ dailyBoard daily names ids act startDay endDay lim) : x.1 ∈ ids := by
  rw [dailyBoard] at hx
  have hx' := (mem_sortDesc _ _ _).mp (List.mem_of_mem_take hx)
  obtain ⟨uu, huu, hmap⟩ := List.mem_filterMap.mp hx'
  obtain ⟨nmv, hnm, hb⟩ := Option.map_eq_some'.mp hmap
  subst hb
  rw [mem_scanKeys] at huu
  obtain ⟨r, hr, hru⟩ := List.mem_map.mp huu
  rw [← hru]
  split_ifs at hr
  · have hpred := (List.mem_filter.mp hr).2
    simp only [decide_eq_true_eq] at hpred
    exact hpred.1
  · have hpred := (List.mem_filter.mp hr).2
    simp only [decide_eq_true_eq] at hpred
    exact hpred.1

theorem allBoard_sorted (totals : List TotalRow) (names : List NameRow) (ids : List Nat)
    (act : Option String) (lim : Nat) :
    List.Pairwise (fun x y : Nat × String × Int => y.2.2 ≤ x.2.2)
      (allBoard totals names ids act lim) := by
  rw [allBoard]
  split_ifs
  · exact List.Pairwise.sublist (List.take_sublist _ _) (pairwise_sortDesc _ _)
  · exact List.Pairwise.sublist (List.take_sublist _ _) (pairwise_sortDesc _ _)

theorem dailyBoard_sorted (daily : List DailyRow) (names : List NameRow) (ids : List Nat)
    (act : Option String) (startDay endDay : Int) (lim : Nat) :
    List.Pairwise (fun x y : Nat × String × Int => y.2.2 ≤ x.2.2)
      (dailyBoard daily names ids act startDay endDay lim) :=
  List.Pairwise.sublist (List.take_sublist _ _) (pairwise_sortDesc _ _)

theorem allBoard_length (totals : List TotalRow) (names : List NameRow) (ids : List Nat)
    (act : Option String) (lim : Nat) : (allBoard totals names ids act lim).length ≤ lim := by
  rw [allBoard]
  split_ifs
  · exact List.length_take_le _ _
  · exact List.length_take_le _ _

theorem dailyBoard_length (daily : List DailyRow) (names : List NameRow) (ids : List Nat)
    (act : Option String) (startDay endDay : Int) (lim : Nat) :
    (dailyBoard daily names ids act startDay endDay lim).length ≤ lim :=
  List.length_take_le _ _

/-- Claim C8: every leaderboard result is empty for an empty id list, is ordered
non-increasingly by seconds, never exceeds the requested limit, and mentions only users
from the supplied id list. -/
theorem claim_C8 (s : Store) (ids : List Nat) (act : Option String) (p : String)
    (lim : Nat) (now : Int) :
    (ids = [] → Store.leaderboard s ids act p lim now = []) ∧
    List.Pairwise (fun x y : Nat × String × Int => y.2.2 ≤ x.2.2)
      (Store.leaderboard s ids act p lim now) ∧
    (Store.leaderboard s ids act p lim now).length ≤ lim ∧
    ∀ e ∈ Store.leaderboard s ids act p lim now, e.1 ∈ ids := by
  by_cases hids : ids = []
  · simp [Store.leaderboard, hids]
  · rw [Store.leaderboard, if_neg hids]
    by_cases hp : p = "all"
    · rw [if_pos hp]
      exact ⟨fun h => absurd h hids, allBoard_sorted _ _ _ _ _, allBoard_length _ _ _ _ _,
        fun e he => mem_allBoard _ _ _ _ _ e he⟩
    · rw [if_neg hp]
      exact ⟨fun h => absurd h hids, dailyBoard_sorted _ _ _ _ _ _ _,
        dailyBoard_length _ _ _ _ _ _ _, fun e he => mem_dailyBoard _ _ _ _ _ _ _ e he⟩

theorem claim_C8_witness :
    (([2, 3] : List Nat) = [] →
      Store.leaderboard ⟨[⟨2, "X", 7⟩], [], [⟨2, "p2", 0⟩]⟩ [2, 3] none "all" 5 0 = []) ∧
    List.Pairwise (fun x y : Nat × String × Int => y.2.2 ≤ x.2.2)
      (Store.leaderboard ⟨[⟨2, "X", 7⟩], [], [⟨2, "p2", 0⟩]⟩ [2, 3] none "all" 5 0) ∧
    (Store.leaderboard ⟨[⟨2, "X", 7⟩], [], [⟨2, "p2", 0⟩]⟩ [2, 3] none "all" 5 0).length ≤ 5 ∧
    ∀ e ∈ Store.leaderboard ⟨[⟨2, "X", 7⟩], [], [⟨2, "p2", 0⟩]⟩ [2, 3] none "all" 5 0,
      e.1 ∈ ([2, 3] : List Nat) :=
  claim_C8 ⟨[⟨2, "X", 7⟩], [], [⟨2, "p2", 0⟩]⟩ [2, 3] none "all" 5 0

theorem scanKeys_perm [DecidableEq α] {l1 l2 : List α} (h : l1.Perm l2) :
    (scanKeys l1).Perm (scanKeys l2) := by
  rw [scanKeys, scanKeys]
  have h1 : l1.reverse.Perm l2.reverse :=
    (List.reverse_perm l1).trans (h.trans (List.reverse_perm l2).symm)
  exact (List.reverse_perm _).trans (h1.dedup.trans (List.reverse_perm _).symm)

theorem length_scanKeys_le [DecidableEq α] (l : List α) : (scanKeys l).length ≤ l.length := by
  rw [scanKeys, List.length_reverse]
  calc l.reverse.dedup.length ≤ l.reverse.length := (List.dedup_sublist _).length_le
  _ = l.length := List.length_reverse _

theorem take_sortDesc_perm (f : α → Int) {l1 l2 : List α} (n : Nat) (h : l1.Perm l2)
    (h1 : l1.length ≤ n) :
    ((sortDesc f l1).take n).Perm ((sortDesc f l2).take n) := by
  rw [List.take_of_length_le (by rw [length_sortDesc]; exact h1),
      List.take_of_length_le (by rw [length_sortDesc]; exact h.length_eq ▸ h1)]
  exact (perm_sortDesc f l1).trans (h.trans (perm_sortDesc f l2).symm)

theorem dailyTop_sorted (daily : List DailyRow) (u : Nat) (a b : Int) (lim : Nat) :
    List.Pairwise (fun x y : String × Int => y.2 ≤ x.2) (dailyTop daily u a b lim) :=
  List.Pairwise.sublist (List.take_sublist _ _) (pairwise_sortDesc _ _)

theorem top_activities_sorted (s : Store) (u : Nat) (p : String) (lim : Nat) (now : Int) :
    List.Pairwise (fun x y : String × Int => y.2 ≤ x.2)
      (Store.top_activities s u p lim now) := by
  rw [Store.top_activities]
  split_ifs
  · exact List.Pairwise.sublist (List.take_sublist _ _) (pairwise_sortDesc _ _)
  all_goals exact dailyTop_sorted _ _ _ _ _

theorem leaderboard_sorted (s : Store) (ids : List Nat) (act : Option String) (p : String)
    (lim : Nat) (now : Int) :
    List.Pairwise (fun x y : Nat × String × Int => y.2.2 ≤ x.2.2)
      (Store.leaderboard s ids act p lim now) := by
  rw [Store.leaderboard]
  split_ifs
  · exact List.Pairwise.nil
  · exact allBoard_sorted _ _ _ _ _
  all_goals exact dailyBoard_sorted _ _ _ _ _ _ _

theorem dailyTop_perm {d1 d2 : List DailyRow} (u : Nat) (a b : Int) (lim : Nat)
    (h : d1.Perm d2) (hlen : d1.length ≤ lim) :
    (dailyTop d1 u a b lim).Perm (dailyTop d2 u a b lim) := by
  rw [dailyTop, dailyTop]
  have hrows : (d1.filter (fun r => r.user_id = u ∧ a ≤ r.day ∧ r.day ≤ b)).Perm
      (d2.filter (fun r => r.user_id = u ∧ a ≤ r.day ∧ r.day ≤ b)) := h.filter _
  have hacts := scanKeys_perm (hrows.map (fun r => r.activity))
  have hf : (fun s => (s,
        (((d1.filter (fun r => r.user_id = u ∧ a ≤ r.day ∧ r.day ≤ b)).filter
          (fun r => r.activity = s)).map (fun r => r.seconds)).sum)) =
      (fun s => (s,
        (((d2.filter (fun r => r.user_id = u ∧ a ≤ r.day ∧ r.day ≤ b)).filter
          (fun r => r.activity = s)).map (fun r => r.seconds)).sum)) := by
    funext s
    rw [((hrows.filter (fun r => r.activity = s)).map (fun r => r.seconds)).sum_eq]
  refine take_sortDesc_perm _ lim ?_ ?_
  · refine (hacts.map _).trans ?_
    rw [hf]
  · rw [List.length_map]
    refine le_trans (le_trans (length_scanKeys_le _) ?_) hlen
    rw [List.length_map]
    exact List.length_filter_le _ _

theorem allBoard_perm {t1 t2 : List TotalRow} (names : List NameRow) (ids : List Nat)
    (act : Option String) (lim : Nat) (h : t1.Perm t2) (hlen : t1.length ≤ lim) :
    (allBoard t1 names ids act lim).Perm (allBoard t2 names ids act lim) := by
  rw [allBoard, allBoard]
  by_cases hb : activityGiven act = true
  · simp only [if_pos hb]
    refine take_sortDesc_perm _ lim ((h.filter _).filterMap _) ?_
    exact le_trans (List.length_filterMap_le _ _) (le_trans (List.length_filter_le _ _) hlen)
  · simp only [if_neg hb]
    have hrows : (t1.filter (fun r => r.user_id ∈ ids)).Perm
        (t2.filter (fun r => r.user_id ∈ ids)) := h.filter _
    have husers := scanKeys_perm (hrows.map (fun r => r.user_id))
    have hf : (fun uu => (lookupName names uu).map
          (fun nm => (uu, nm,
            (((t1.filter (fun r => r.user_id ∈ ids)).filter (fun r => r.user_id = uu)).map
              (fun r => r.seconds)).sum))) =
        (fun uu => (lookupName names uu).map
          (fun nm => (uu, nm,
            (((t2.filter (fun r => r.user_id ∈ ids)).filter (fun r => r.user_id = uu)).map
              (fun r => r.seconds)).sum))) := by
      funext uu
      rw [((hrows.filter (fun r => r.user_id = uu)).map (fun r => r.seconds)).sum_eq]
    refine take_sortDesc_perm _ lim ?_ ?_
    · refine (husers.filterMap _).trans ?_
      rw [hf]
    · refine le_trans (List.length_filterMap_le _ _) ?_
      refine le_trans (length_scanKeys_le _) ?_
      rw [List.length_map]
      exact le_trans (List.length_filter_le _ _) hlen

theorem dailyBoard_perm {d1 d2 : List DailyRow} (names : List NameRow) (ids : List Nat)
    (act : Option String) (a b : Int) (lim : Nat) (h : d1.Perm d2) (hlen : d1.length ≤ lim) :
    (dailyBoard d1 names ids act a b lim).Perm (dailyBoard d2 names ids act a b lim) := by
  have key : ∀ p : DailyRow → Bool,
      ((sortDesc (fun e : Nat × String × Int => e.2.2)
        ((scanKeys ((d1.filter p).map (fun r => r.user_id))).filterMap
          (fun uu => (lookupName names uu).map
            (fun nm => (uu, nm,
              (((d1.filter p).filter (fun r => r.user_id = uu)).map
                (fun r => r.seconds)).sum))))).take lim).Perm
      ((sortDesc (fun e : Nat × String × Int => e.2.2)
        ((scanKeys ((d2.filter p).map (fun r => r.user_id))).filterMap
          (fun uu => (lookupName names uu).map
            (fun nm => (uu, nm,
              (((d2.filter p).filter (fun r => r.user_id = uu)).map
                (fun r => r.seconds)).sum))))).take lim) := by
    intro p
    have hrows : (d1.filter p).Perm (d2.filter p) := h.filter p
    have husers := scanKeys_perm (hrows.map (fun r => r.user_id))
    have hf : (fun uu => (lookupName names uu).map
          (fun nm => (uu, nm,
            (((d1.filter p).filter (fun r => r.user_id = uu)).map
              (fun r => r.seconds)).sum))) =
        (fun uu => (lookupName names uu).map
          (fun nm => (uu, nm,
            (((d2.filter p).filter (fun r => r.user_id = uu)).map
              (fun r => r.seconds)).sum))) := by
      funext uu
      rw [((hrows.filter (fun r => r.user_id = uu)).map (fun r => r.seconds)).sum_eq]
    refine take_sortDesc_perm _ lim ?_ ?_
    · refine (husers.filterMap _).trans ?_
      rw [hf]
    · refine le_trans (List.length_filterMap_le _ _) ?_
      refine le_trans (length_scanKeys_le _) ?_
      rw [List.length_map]
      exact le_trans (List.length_filter_le _ _) hlen
  rw [dailyBoard, dailyBoard]
  by_cases hb : activityGiven act = true
  · simp only [if_pos hb]
    exact key _
  · simp only [if_neg hb]
    exact key _

/-- Claim C9 counterexample: stores holding the same counter rows — permuted storage
order only — return differently ordered results with equal seconds, for `top_activities`
and for `leaderboard`, in the all-time branch and in a windowed branch alike: the ordering
follows incidental storage order and there is no secondary sort key. -/
theorem claim_C9_counterexample :
    ([⟨1, "A", 10⟩, ⟨1, "B", 10⟩] : List TotalRow).Perm [⟨1, "B", 10⟩, ⟨1, "A", 10⟩] ∧
    ([⟨1, "A", 0, 10⟩, ⟨1, "B", 0, 10⟩] : List DailyRow).Perm
      [⟨1, "B", 0, 10⟩, ⟨1, "A", 0, 10⟩] ∧
    ([⟨1, "A", 10⟩, ⟨2, "A", 10⟩] : List TotalRow).Perm [⟨2, "A", 10⟩, ⟨1, "A", 10⟩] ∧
    ([⟨1, "A", 0, 10⟩, ⟨2, "A", 0, 10⟩] : List DailyRow).Perm
      [⟨2, "A", 0, 10⟩, ⟨1, "A", 0, 10⟩] ∧
    Store.top_activities ⟨[⟨1, "A", 10⟩, ⟨1, "B", 10⟩], [], []⟩ 1 "all" 10 0 ≠
      Store.top_activities ⟨[⟨1, "B", 10⟩, ⟨1, "A", 10⟩], [], []⟩ 1 "all" 10 0 ∧
    Store.top_activities ⟨[], [⟨1, "A", 0, 10⟩, ⟨1, "B", 0, 10⟩], []⟩ 1 "week" 10 0 ≠
      Store.top_activities ⟨[], [⟨1, "B", 0, 10⟩, ⟨1, "A", 0, 10⟩], []⟩ 1 "week" 10 0 ∧
    Store.leaderboard ⟨[⟨1, "A", 10⟩, ⟨2, "A", 10⟩], [], [⟨1, "p1", 0⟩, ⟨2, "p2", 0⟩]⟩
        [1, 2] none "all" 10 0 ≠
      Store.leaderboard ⟨[⟨2, "A", 10⟩, ⟨1, "A", 10⟩], [], [⟨1, "p1", 0⟩, ⟨2, "p2", 0⟩]⟩
        [1, 2] none "all" 10 0 ∧
    Store.leaderboard ⟨[], [⟨1, "A", 0, 10⟩, ⟨2, "A", 0, 10⟩], [⟨1, "p1", 0⟩, ⟨2, "p2", 0⟩]⟩
        [1, 2] none "week" 10 0 ≠
      Store.leaderboard ⟨[], [⟨2, "A", 0, 10⟩, ⟨1, "A", 0, 10⟩], [⟨1, "p1", 0⟩, ⟨2, "p2", 0⟩]⟩
        [1, 2] none "week" 10 0 := by
  decide

/-- Claim C9 amended: for every period and both ranked query operations, results are
sorted only by seconds, non-increasingly; the stored counters determine a result merely
up to permutation — two stores holding the same totals and daily rows in any storage
order (and the same name cache) give permuted results whenever the limit does not
truncate — and equal-seconds entries follow incidental storage order rather than a
documented secondary key. -/
theorem claim_C9_amended (s1 s2 : Store) (u : Nat) (ids : List Nat) (act : Option String)
    (p : String) (lim : Nat) (now : Int)
    (hpt : s1.totals.Perm s2.totals)
    (hpd : s1.daily_totals.Perm s2.daily_totals)
    (hnames : s1.guild_usernames = s2.guild_usernames)
    (hlt : s1.totals.length ≤ lim)
    (hld : s1.daily_totals.length ≤ lim) :
    List.Pairwise (fun x y : String × Int => y.2 ≤ x.2)
      (Store.top_activities s1 u p lim now) ∧
    List.Pairwise (fun x y : Nat × String × Int => y.2.2 ≤ x.2.2)
      (Store.leaderboard s1 ids act p lim now) ∧
    (Store.top_activities s1 u p lim now).Perm (Store.top_activities s2 u p lim now) ∧
    (Store.leaderboard s1 ids act p lim now).Perm
      (Store.leaderboard s2 ids act p lim now) := by
  refine ⟨top_activities_sorted s1 u p lim now, leaderboard_sorted s1 ids act p lim now,
    ?_, ?_⟩
  · rw [Store.top_activities, Store.top_activities]
    split_ifs
    · refine take_sortDesc_perm _ lim ((hpt.filter _).map _) ?_
      rw [List.length_map]
      exact le_trans (List.length_filter_le _ _) hlt
    all_goals exact dailyTop_perm u _ _ lim hpd hld
  · rw [Store.leaderboard, Store.leaderboard]
    split_ifs
    · exact List.Perm.refl []
    · rw [hnames]
      exact allBoard_perm _ _ _ _ hpt hlt
    all_goals
      rw [hnames]
      exact dailyBoard_perm _ _ _ _ _ _ hpd hld

theorem claim_C9_amended_witness :
    List.Pairwise (fun x y : String × Int => y.2 ≤ x.2)
      (Store.top_activities ⟨[⟨1, "A", 10⟩, ⟨1, "B", 10⟩], [⟨1, "A", 0, 7⟩, ⟨1, "B", 0, 7⟩],
        [⟨1, "p1", 0⟩]⟩ 1 "week" 5 0) ∧
    List.Pairwise (fun x y : Nat × String × Int => y.2.2 ≤ x.2.2)
      (Store.leaderboard ⟨[⟨1, "A", 10⟩, ⟨1, "B", 10⟩], [⟨1, "A", 0, 7⟩, ⟨1, "B", 0, 7⟩],
        [⟨1, "p1", 0⟩]⟩ [1] none "week" 5 0) ∧
    (Store.top_activities ⟨[⟨1, "A", 10⟩, ⟨1, "B", 10⟩], [⟨1, "A", 0, 7⟩, ⟨1, "B", 0, 7⟩],
        [⟨1, "p1", 0⟩]⟩ 1 "week" 5 0).Perm
      (Store.top_activities ⟨[⟨1, "B", 10⟩, ⟨1, "A", 10⟩], [⟨1, "B", 0, 7⟩, ⟨1, "A", 0, 7⟩],
        [⟨1, "p1", 0⟩]⟩ 1 "week" 5 0) ∧
    (Store.leaderboard ⟨[⟨1, "A", 10⟩, ⟨1, "B", 10⟩], [⟨1, "A", 0, 7⟩, ⟨1, "B", 0, 7⟩],
        [⟨1, "p1", 0⟩]⟩ [1] none "week" 5 0).Perm
      (Store.leaderboard ⟨[⟨1, "B", 10⟩, ⟨1, "A", 10⟩], [⟨1, "B", 0, 7⟩, ⟨1, "A", 0, 7⟩],
        [⟨1, "p1", 0⟩]⟩ [1] none "week" 5 0) :=
  claim_C9_amended
    ⟨[⟨1, "A", 10⟩, ⟨1, "B", 10⟩], [⟨1, "A", 0, 7⟩, ⟨1, "B", 0, 7⟩], [⟨1, "p1", 0⟩]⟩
    ⟨[⟨1, "B", 10⟩, ⟨1, "A", 10⟩], [⟨1, "B", 0, 7⟩, ⟨1, "A", 0, 7⟩], [⟨1, "p1", 0⟩]⟩
    1 [1] none "week" 5 0 (by decide) (by decide) (by decide) (by decide) (by decide)

end PlaytimeBot
